import Mathlib

/-!
Verification of the Scratchpad note-taking widget.

The repository contains two parallel implementations of the same feature:
a plain script (`src/legacy_source/app.js`) and a component-framework
version (`src/app/components/Scratchpad.tsx`).  Both debounce input events
into a single storage write, show a save-status indicator driven by two
timers, reconcile content across tabs via storage-change notifications,
and flush pending writes on visibility-change / unload.

We embed each implementation as a deterministic step function over an
explicit state, driven by timestamped events.  Timer scheduling is
modelled by an optional deadline (`some d` = a live timer due at `d`);
the stale `saveTimeout` variable of the script version (set on the first
input and never cleared) is tracked separately as `saveVar`, because the
visibility / unload handlers test that variable, not timer liveness.
Storage-write outcomes (success, quota error, other error, probe failure)
are supplied by the event, modelling the environment.
-/

namespace Scratchpad

/-- `CONFIG.STORAGE_KEY` in both implementations. -/
def STORAGE_KEY : String := "scratchpad_notes"

/-- `CONFIG.AUTOSAVE_DELAY` (ms). -/
def AUTOSAVE_DELAY : Nat := 500

/-- `CONFIG.SAVE_STATUS_DISPLAY_DURATION` (ms). -/
def SAVE_STATUS_DISPLAY_DURATION : Nat := 2000

/-- `CONFIG.THEME_KEY` in both implementations. -/
def THEME_KEY : String := "scratchpad_theme"

/-- The save-status indicator: `default` (neutral), `saving`, `saved`, `error`.
In the script version this is carried by CSS classes / indicator text; in the
component version by the `status` state variable. -/
inductive SaveStatus where
  | default
  | saving
  | saved
  | error
deriving DecidableEq, Repr

/-- Outcome of one interaction with the storage medium during a save attempt:
the availability probe fails (`unavail`), the write succeeds (`ok`), the write
throws `QuotaExceededError` (`quota`), or it throws some other error
(`otherErr`). -/
inductive StoreEnv where
  | unavail
  | ok
  | quota
  | otherErr
deriving DecidableEq, Repr

/-- Events driving either implementation.  `input c` is a content-change
event leaving the text area holding `c`; `saveFire` / `statusFire` are the
debounce and status-reset timers firing; `storage k v` is a storage-change
notification from another tab (`v = none` models a null new value);
`hidden` / `unload` are the visibility-change (to hidden) and before-unload
signals.  Events that may attempt a write carry the storage outcome. -/
inductive Ev where
  | input (c : String)
  | saveFire (env : StoreEnv)
  | statusFire
  | storage (k : String) (v : Option String)
  | hidden (env : StoreEnv)
  | unload (env : StoreEnv)
deriving DecidableEq, Repr

/-- A log entry for a storage write of the note-content key: key and value. -/
abbrev Write := String × String

/-- State of the plain-script implementation (`app.js`).  `notepad` is
`notepad.value`; `saveDeadline` / `statusDeadline` are the live debounce and
status-reset timers (absolute due time); `saveVar` is whether the module-level
`saveTimeout` variable is non-null (it is set by `handleInput` and never
nulled, so it goes stale after the timer fires); `stored` is
`localStorage[STORAGE_KEY]`; `modalShown` tracks `showError()`; `alertCount`
counts blocking `alert(...)` calls. -/
structure LegacyState where
  notepad : String
  status : SaveStatus
  saveDeadline : Option Nat
  statusDeadline : Option Nat
  saveVar : Bool
  stored : Option String
  now : Nat
  modalShown : Bool
  alertCount : Nat
deriving DecidableEq, Repr

/-- `saveNotes()` of `app.js`, lines 95–117, with the availability probe and
write outcome abstracted by `env`.  On probe failure: `updateSaveStatus('error')`
(which clears the status-reset timer) and `showError()`.  On success: the write,
then `updateSaveStatus('saved')` (clears the status-reset timer, then schedules
a fresh one).  On a throwing write: `updateSaveStatus('error')`, plus a blocking
alert exactly when the error is `QuotaExceededError`. -/
def saveNotesL (env : StoreEnv) (t : Nat) (s : LegacyState) : LegacyState × List Write :=
  match env with
  | .unavail =>
      ({ s with statusDeadline := none, status := .error, modalShown := true }, [])
  | .ok =>
      ({ s with stored := some s.notepad,
                statusDeadline := some (t + SAVE_STATUS_DISPLAY_DURATION),
                status := .saved }, [(STORAGE_KEY, s.notepad)])
  | .quota =>
      ({ s with statusDeadline := none, status := .error,
                alertCount := s.alertCount + 1 }, [])
  | .otherErr =>
      ({ s with statusDeadline := none, status := .error }, [])

/-- One step of the plain-script implementation at time `t`.  Time must be
monotone; a timer-fire event is valid only when the corresponding timer is
live with due time exactly `t`.  `input` is `handleInput` (lines 145–158):
set `saving` via `updateSaveStatus` (which cancels the status-reset timer),
cancel the pending save timer, schedule a new one.  `storage` is
`handleStorageEvent` (lines 164–171).  `hidden` / `unload` are the handlers
registered in `init` (lines 250–263): they test the (possibly stale)
`saveTimeout` variable, cancel the timer and call `saveNotes()`. -/
def stepL (s : LegacyState) (t : Nat) (e : Ev) : Option (LegacyState × List Write) :=
  if s.now ≤ t then
    match e with
    | .input c =>
        some ({ s with notepad := c, status := .saving, statusDeadline := none,
                       saveDeadline := some (t + AUTOSAVE_DELAY),
                       saveVar := true, now := t }, [])
    | .saveFire env =>
        if s.saveDeadline = some t then
          some (saveNotesL env t { s with saveDeadline := none, now := t })
        else none
    | .statusFire =>
        if s.statusDeadline = some t then
          some ({ s with statusDeadline := none, status := .default, now := t }, [])
        else none
    | .storage k v =>
        if k = STORAGE_KEY ∧ v ≠ some s.notepad then
          some ({ s with notepad := v.getD "", now := t }, [])
        else
          some ({ s with now := t }, [])
    | .hidden env =>
        if s.saveVar then
          some (saveNotesL env t { s with saveDeadline := none, now := t })
        else
          some ({ s with now := t }, [])
    | .unload env =>
        if s.saveVar then
          some (saveNotesL env t { s with saveDeadline := none, now := t })
        else
          some ({ s with now := t }, [])
  else none

/-- Run the plain-script implementation over a timestamped event trace,
accumulating the log of note-content storage writes. -/
def runL (s : LegacyState) : List (Nat × Ev) → Option (LegacyState × List Write)
  | [] => some (s, [])
  | (t, e) :: rest =>
      (stepL s t e).bind (fun p => (runL p.1 rest).map (fun q => (q.1, p.2 ++ q.2)))

/-- Initial state of the plain-script implementation after `init()` on the
normal path: theme read, availability probe passed, `loadNotes()` put the
stored value (if any) into the text area and set status `default`; no timers
are live and the `saveTimeout` variable is null. -/
def legacyInit (st : Option String) : LegacyState :=
  { notepad := st.getD "", status := .default, saveDeadline := none,
    statusDeadline := none, saveVar := false, stored := st, now := 0,
    modalShown := false, alertCount := 0 }

/-- State of the component-framework implementation (`Scratchpad.tsx`).
`content` is the `content` state variable; `savePending` is the content
captured by the closure of the currently scheduled debounce callback
(`saveNotes(newContent)` captures the value at input time); `saveVar` is
whether `saveTimeoutRef.current` is non-null (never nulled once set);
`showErrorFlag` is the `showError` state. -/
structure ReactState where
  content : String
  status : SaveStatus
  saveDeadline : Option Nat
  statusDeadline : Option Nat
  savePending : String
  saveVar : Bool
  stored : Option String
  now : Nat
  showErrorFlag : Bool
  alertCount : Nat
deriving DecidableEq, Repr

/-- `saveNotes(text)` of `Scratchpad.tsx`, lines 73–96.  On probe failure:
status `error` and the error modal — the status-reset timer is NOT cleared.
On success: the write, clear the status-reset timer, schedule a fresh one,
status `saved`.  On a throwing write: status `error`, alert exactly on
`QuotaExceededError` — again without touching the status-reset timer. -/
def saveNotesR (env : StoreEnv) (t : Nat) (text : String) (s : ReactState) :
    ReactState × List Write :=
  match env with
  | .unavail =>
      ({ s with status := .error, showErrorFlag := true }, [])
  | .ok =>
      ({ s with stored := some text,
                statusDeadline := some (t + SAVE_STATUS_DISPLAY_DURATION),
                status := .saved }, [(STORAGE_KEY, text)])
  | .quota =>
      ({ s with status := .error, alertCount := s.alertCount + 1 }, [])
  | .otherErr =>
      ({ s with status := .error }, [])

/-- One step of the component-framework implementation at time `t`.
`input` is `handleInput` (lines 99–108): set content and `saving`, cancel
the pending save timer, schedule a new one capturing the new content — the
status-reset timer is NOT cancelled.  `saveFire` runs the captured closure.
`statusFire` is the status-reset callback (line 86–88).  `storage` is
`handleStorage` (lines 112–115).  `hidden` (lines 123–128) cancels the
pending timer and saves the current content; `unload` (lines 132–136) saves
the current content WITHOUT cancelling the timer. -/
def stepR (s : ReactState) (t : Nat) (e : Ev) : Option (ReactState × List Write) :=
  if s.now ≤ t then
    match e with
    | .input c =>
        some ({ s with content := c, status := .saving,
                       saveDeadline := some (t + AUTOSAVE_DELAY),
                       savePending := c, saveVar := true, now := t }, [])
    | .saveFire env =>
        if s.saveDeadline = some t then
          some (saveNotesR env t s.savePending { s with saveDeadline := none, now := t })
        else none
    | .statusFire =>
        if s.statusDeadline = some t then
          some ({ s with statusDeadline := none, status := .default, now := t }, [])
        else none
    | .storage k v =>
        if k = STORAGE_KEY ∧ v ≠ some s.content then
          some ({ s with content := v.getD "", now := t }, [])
        else
          some ({ s with now := t }, [])
    | .hidden env =>
        if s.saveVar then
          some (saveNotesR env t s.content { s with saveDeadline := none, now := t })
        else
          some ({ s with now := t }, [])
    | .unload env =>
        if s.saveVar then
          some (saveNotesR env t s.content { s with now := t })
        else
          some ({ s with now := t }, [])
  else none

/-- Run the component-framework implementation over a timestamped trace. -/
def runR (s : ReactState) : List (Nat × Ev) → Option (ReactState × List Write)
  | [] => some (s, [])
  | (t, e) :: rest =>
      (stepR s t e).bind (fun p => (runR p.1 rest).map (fun q => (q.1, p.2 ++ q.2)))

/-- Initial state of the component implementation after the mount effect on
the normal path (theme read, probe passed, stored value loaded into
`content`). -/
def reactInit (st : Option String) : ReactState :=
  { content := st.getD "", status := .default, saveDeadline := none,
    statusDeadline := none, savePending := "", saveVar := false, stored := st,
    now := 0, showErrorFlag := false, alertCount := 0 }

/-- Sentinel key used by the storage availability probe. -/
def TEST_KEY : String := "__localStorage_test__"

/-- A key-value store whose mutating operations may throw: `setThrows` means
`setItem` throws (before storing anything, as with quota or disabled
storage); `removeThrows` means the subsequent `removeItem` throws. -/
structure ThrowingStore where
  data : String → Option String
  setThrows : Bool
  removeThrows : Bool

/-- `isLocalStorageAvailable()` (`app.js` lines 31–40, identical in
`Scratchpad.tsx` lines 61–70): write the sentinel, delete it, return `true`;
any throw is caught and returns `false`.  The result pairs the boolean with
the store contents after the probe. -/
def isLocalStorageAvailable (st : ThrowingStore) : Bool × (String → Option String) :=
  if st.setThrows then (false, st.data)
  else
    let d1 : String → Option String := fun k => if k = TEST_KEY then some "test" else st.data k
    if st.removeThrows then (false, d1)
    else (true, fun k => if k = TEST_KEY then none else d1 k)

/-- Theme initialization (`initTheme()` in `app.js` lines 210–215 and the
mount effect in `Scratchpad.tsx` lines 26–29): dark mode exactly when the
stored theme value is the string `"dark"`. -/
def initThemeDark (savedTheme : Option String) : Bool :=
  savedTheme == some "dark"

/-- Timer-handle model: `setTimeout` returns a fresh id and adds it to the
live set of its kind; `clearTimeout h` removes `h` from the live set (a
no-op on an already-fired id).  `saveVarT` / `statusVarT` are the values of
the `saveTimeout` / `statusTimeout` variables (or refs). -/
structure TimerSys where
  nextId : Nat
  liveSave : List Nat
  liveStatus : List Nat
  saveVarT : Option Nat
  statusVarT : Option Nat
deriving DecidableEq, Repr

/-- `clearTimeout` on an optional handle: removes that id from a live set. -/
def clearT (live : List Nat) (h : Option Nat) : List Nat :=
  match h with
  | none => live
  | some i => live.erase i

/-- Timer effect of `updateSaveStatus` (`app.js` lines 59–90): always clear
the pending status-reset timer first (and null its variable); schedule a
fresh one only in the `'saved'` case (`schedule = true`).  The composite is
written as a single record: clear-then-schedule puts the fresh id in front
of the cleared live set. -/
def updateSaveStatusT (schedule : Bool) (s : TimerSys) : TimerSys :=
  if schedule then
    { nextId := s.nextId + 1,
      liveSave := s.liveSave,
      liveStatus := s.nextId :: clearT s.liveStatus s.statusVarT,
      saveVarT := s.saveVarT,
      statusVarT := some s.nextId }
  else
    { s with liveStatus := clearT s.liveStatus s.statusVarT, statusVarT := none }

/-- Timer effect of the script's `saveNotes()`: `updateSaveStatus('saved')`
on success (schedules the status-reset timer), `updateSaveStatus('error')`
otherwise (schedules nothing). -/
def saveNotesT (env : StoreEnv) (s : TimerSys) : TimerSys :=
  updateSaveStatusT (env = .ok) s

/-- Timer effect of the script's `handleInput()` (lines 145–158):
`updateSaveStatus('saving')` (clears the status-reset timer, nulls its
variable), then `clearTimeout(saveTimeout)` on the old handle, then schedule
a new save timer and store its handle; written as the composite record. -/
def handleInputT (s : TimerSys) : TimerSys :=
  { nextId := s.nextId + 1,
    liveSave := s.nextId :: clearT s.liveSave s.saveVarT,
    liveStatus := clearT s.liveStatus s.statusVarT,
    saveVarT := some s.nextId,
    statusVarT := none }

/-- Timer events: an input, a save timer with id `i` firing, a status-reset
timer with id `i` firing, or a visibility / unload signal. -/
inductive TEv where
  | input
  | saveFire (i : Nat) (env : StoreEnv)
  | statusFire (i : Nat)
  | hidden (env : StoreEnv)
  | unload (env : StoreEnv)
deriving DecidableEq, Repr

/-- One timer-level step of the plain-script implementation.  A timer can
fire only while its id is live; firing consumes the id.  The hidden / unload
handlers (`init`, lines 250–263) test the `saveTimeout` variable, clear that
handle and run `saveNotes()`. -/
def stepT (s : TimerSys) (e : TEv) : Option TimerSys :=
  match e with
  | .input => some (handleInputT s)
  | .saveFire i env =>
      if i ∈ s.liveSave then
        some (saveNotesT env { s with liveSave := s.liveSave.erase i })
      else none
  | .statusFire i =>
      if i ∈ s.liveStatus then
        some { s with liveStatus := s.liveStatus.erase i }
      else none
  | .hidden env =>
      match s.saveVarT with
      | some i => some (saveNotesT env { s with liveSave := s.liveSave.erase i })
      | none => some s
  | .unload env =>
      match s.saveVarT with
      | some i => some (saveNotesT env { s with liveSave := s.liveSave.erase i })
      | none => some s

/-- Timer effect of the component's `saveNotes` (lines 85–88): only the
success path touches timers — clear the pending status-reset timer, then
schedule a fresh one. -/
def saveNotesRT (env : StoreEnv) (s : TimerSys) : TimerSys :=
  if env = .ok then updateSaveStatusT true s else s

/-- One timer-level step of the component implementation.  `handleInput`
(lines 104–107) clears only the save timer (never the status-reset timer);
the unload handler (lines 132–136) saves WITHOUT clearing the save timer. -/
def stepRT (s : TimerSys) (e : TEv) : Option TimerSys :=
  match e with
  | .input =>
      let s1 := { s with liveSave := clearT s.liveSave s.saveVarT }
      some { s1 with liveSave := s1.nextId :: s1.liveSave,
                     saveVarT := some s1.nextId, nextId := s1.nextId + 1 }
  | .saveFire i env =>
      if i ∈ s.liveSave then
        some (saveNotesRT env { s with liveSave := s.liveSave.erase i })
      else none
  | .statusFire i =>
      if i ∈ s.liveStatus then
        some { s with liveStatus := s.liveStatus.erase i }
      else none
  | .hidden env =>
      match s.saveVarT with
      | some i => some (saveNotesRT env { s with liveSave := s.liveSave.erase i })
      | none => some s
  | .unload env =>
      match s.saveVarT with
      | some _ => some (saveNotesRT env s)
      | none => some s

/-- Run a timer-event list on the plain-script timer model. -/
def runT (s : TimerSys) : List TEv → Option TimerSys
  | [] => some s
  | e :: rest =>
      match stepT s e with
      | none => none
      | some s' => runT s' rest

/-- Run a timer-event list on the component timer model. -/
def runRT (s : TimerSys) : List TEv → Option TimerSys
  | [] => some s
  | e :: rest =>
      match stepRT s e with
      | none => none
      | some s' => runRT s' rest

/-- Initial timer state: no live timers, both variables null. -/
def timerInit : TimerSys :=
  { nextId := 0, liveSave := [], liveStatus := [], saveVarT := none, statusVarT := none }

/-- Single-slot discipline for one timer kind: the live set is empty, or a
singleton whose id is held by the corresponding variable. -/
def SlotInv (live : List Nat) (v : Option Nat) : Prop :=
  live = [] ∨ ∃ i, live = [i] ∧ v = some i

/-- Single-slot discipline for both timer kinds. -/
def TimerInv (s : TimerSys) : Prop :=
  SlotInv s.liveSave s.saveVarT ∧ SlotInv s.liveStatus s.statusVarT

/-- While the script's machine shows `saving`, no status-reset timer is
live: `handleInput` routes through `updateSaveStatus('saving')`, which
clears it, and the only code that schedules it also leaves `saved`. -/
def SavingNoReset (s : LegacyState) : Prop :=
  s.status = .saving → s.statusDeadline = none

/-- Once any save timer has been scheduled in the script, the `saveTimeout`
variable stays non-null for good; in particular a live save timer implies a
non-null variable. -/
def VarInv (s : LegacyState) : Prop :=
  s.saveDeadline.isSome → s.saveVar = true

/-- Content-change events as a timed trace. -/
def inputEvs (inputs : List (Nat × String)) : List (Nat × Ev) :=
  inputs.map (fun p => (p.1, Ev.input p.2))

/-- Successive content-change events are time-ordered and separated by less
than the debounce delay. -/
def Rapid : List (Nat × String) → Bool
  | [] => true
  | [_] => true
  | (t1, _) :: (t2, c2) :: rest =>
      decide (t1 ≤ t2) && decide (t2 < t1 + AUTOSAVE_DELAY) && Rapid ((t2, c2) :: rest)

/-- The last element of a list, given a default for the empty case. -/
def lastOf : List (Nat × String) → (Nat × String) → (Nat × String)
  | [], d => d
  | x :: xs, _ => lastOf xs x

/-- Traces of content-change events and debounce firings only. -/
def isBasic : Ev → Bool
  | .input _ => true
  | .saveFire _ => true
  | _ => false

/-- Correspondence between a script state and a component state under which
the two implementations run in lock step over basic events: all observable
fields agree, and whenever a save timer is live the content captured by the
component's scheduled closure equals the script's current content. -/
def Agrees (l : LegacyState) (r : ReactState) : Prop :=
  l.notepad = r.content ∧ l.status = r.status ∧ l.saveDeadline = r.saveDeadline ∧
  l.stored = r.stored ∧ l.now = r.now ∧ l.saveVar = r.saveVar ∧
  l.modalShown = r.showErrorFlag ∧ l.alertCount = r.alertCount ∧
  (l.saveDeadline ≠ none → r.savePending = l.notepad)

lemma slotInv_nil (v : Option Nat) : SlotInv [] v := Or.inl rfl

lemma slotInv_single (i : Nat) : SlotInv [i] (some i) := Or.inr ⟨i, rfl, rfl⟩

lemma slotInv_clear {live : List Nat} {v : Option Nat} (h : SlotInv live v) :
    clearT live v = [] := by
  rcases h with h | ⟨i, h1, h2⟩
  · subst h
    cases v <;> simp [clearT]
  · subst h1
    subst h2
    simp [clearT, List.erase_cons_head]

lemma slotInv_erase_mem {live : List Nat} {v : Option Nat} {i : Nat}
    (h : SlotInv live v) (hi : i ∈ live) : live.erase i = [] := by
  rcases h with h | ⟨j, h1, _⟩
  · subst h
    cases hi
  · subst h1
    have hij : i = j := by simpa using hi
    subst hij
    simp [List.erase_cons_head]

lemma slotInv_length {live : List Nat} {v : Option Nat} (h : SlotInv live v) :
    live.length ≤ 1 := by
  rcases h with h | ⟨i, h1, _⟩
  · simp [h]
  · simp [h1]

lemma updateSaveStatusT_inv (s : TimerSys) (b : Bool) (h : TimerInv s) :
    TimerInv (updateSaveStatusT b s) ∧
    (updateSaveStatusT b s).liveSave = s.liveSave ∧
    (updateSaveStatusT b s).saveVarT = s.saveVarT := by
  cases b
  · exact ⟨⟨h.1, Or.inl (slotInv_clear h.2)⟩, rfl, rfl⟩
  · refine ⟨⟨h.1, ?_⟩, rfl, rfl⟩
    show SlotInv (s.nextId :: clearT s.liveStatus s.statusVarT) (some s.nextId)
    rw [slotInv_clear h.2]
    exact slotInv_single _

lemma slotInv_erase_var {s : TimerSys} {i : Nat} (h : SlotInv s.liveSave s.saveVarT)
    (heq : s.saveVarT = some i) : SlotInv (s.liveSave.erase i) s.saveVarT := by
  rcases h with h1 | ⟨j, h1, h2⟩
  · rw [h1]
    exact slotInv_nil _
  · rw [heq] at h2
    have hij : i = j := Option.some.inj h2
    subst hij
    rw [h1]
    simp only [List.erase_cons_head]
    exact slotInv_nil _

lemma stepT_inv {s s' : TimerSys} {e : TEv} (h : TimerInv s)
    (hs : stepT s e = some s') : TimerInv s' := by
  cases e with
  | input =>
      simp only [stepT, Option.some.injEq] at hs
      subst hs
      unfold handleInputT
      constructor
      · show SlotInv (s.nextId :: clearT s.liveSave s.saveVarT) (some s.nextId)
        rw [slotInv_clear h.1]
        exact slotInv_single _
      · show SlotInv (clearT s.liveStatus s.statusVarT) none
        rw [slotInv_clear h.2]
        exact slotInv_nil _
  | saveFire i env =>
      simp only [stepT] at hs
      split at hs
      · rename_i hmem
        simp only [Option.some.injEq] at hs
        subst hs
        have hbase : TimerInv { s with liveSave := s.liveSave.erase i } := by
          constructor
          · show SlotInv (s.liveSave.erase i) s.saveVarT
            rw [slotInv_erase_mem h.1 hmem]
            exact slotInv_nil _
          · exact h.2
        exact (updateSaveStatusT_inv { s with liveSave := s.liveSave.erase i } _ hbase).1
      · exact absurd hs (by simp)
  | statusFire i =>
      simp only [stepT] at hs
      split at hs
      · rename_i hmem
        simp only [Option.some.injEq] at hs
        subst hs
        refine ⟨h.1, ?_⟩
        show SlotInv (s.liveStatus.erase i) s.statusVarT
        rw [slotInv_erase_mem h.2 hmem]
        exact slotInv_nil _
      · exact absurd hs (by simp)
  | hidden env =>
      simp only [stepT] at hs
      split at hs
      · rename_i i heq
        simp only [Option.some.injEq] at hs
        subst hs
        have hbase : TimerInv { s with liveSave := s.liveSave.erase i } :=
          ⟨slotInv_erase_var h.1 heq, h.2⟩
        exact (updateSaveStatusT_inv { s with liveSave := s.liveSave.erase i } _ hbase).1
      · simp only [Option.some.injEq] at hs
        subst hs
        exact h
  | unload env =>
      simp only [stepT] at hs
      split at hs
      · rename_i i heq
        simp only [Option.some.injEq] at hs
        subst hs
        have hbase : TimerInv { s with liveSave := s.liveSave.erase i } :=
          ⟨slotInv_erase_var h.1 heq, h.2⟩
        exact (updateSaveStatusT_inv { s with liveSave := s.liveSave.erase i } _ hbase).1
      · simp only [Option.some.injEq] at hs
        subst hs
        exact h

lemma runT_inv {evs : List TEv} : ∀ {s s' : TimerSys}, TimerInv s →
    runT s evs = some s' → TimerInv s' := by
  induction evs with
  | nil =>
      intro s s' h hs
      simp only [runT, Option.some.injEq] at hs
      subst hs
      exact h
  | cons e rest ih =>
      intro s s' h hs
      simp only [runT] at hs
      rcases he : stepT s e with _ | s1
      · rw [he] at hs; cases hs
      · rw [he] at hs
        exact ih (stepT_inv h he) hs

lemma saveNotesRT_inv (s : TimerSys) (env : StoreEnv) (h : TimerInv s) :
    TimerInv (saveNotesRT env s) := by
  unfold saveNotesRT
  split
  · exact (updateSaveStatusT_inv s true h).1
  · exact h

lemma stepRT_inv {s s' : TimerSys} {e : TEv} (h : TimerInv s)
    (hs : stepRT s e = some s') : TimerInv s' := by
  cases e with
  | input =>
      simp only [stepRT, Option.some.injEq] at hs
      subst hs
      constructor
      · show SlotInv (s.nextId :: clearT s.liveSave s.saveVarT) (some s.nextId)
        rw [slotInv_clear h.1]
        exact slotInv_single _
      · exact h.2
  | saveFire i env =>
      simp only [stepRT] at hs
      split at hs
      · rename_i hmem
        simp only [Option.some.injEq] at hs
        subst hs
        have hbase : TimerInv { s with liveSave := s.liveSave.erase i } := by
          constructor
          · show SlotInv (s.liveSave.erase i) s.saveVarT
            rw [slotInv_erase_mem h.1 hmem]
            exact slotInv_nil _
          · exact h.2
        exact saveNotesRT_inv { s with liveSave := s.liveSave.erase i } env hbase
      · exact absurd hs (by simp)
  | statusFire i =>
      simp only [stepRT] at hs
      split at hs
      · rename_i hmem
        simp only [Option.some.injEq] at hs
        subst hs
        refine ⟨h.1, ?_⟩
        show SlotInv (s.liveStatus.erase i) s.statusVarT
        rw [slotInv_erase_mem h.2 hmem]
        exact slotInv_nil _
      · exact absurd hs (by simp)
  | hidden env =>
      simp only [stepRT] at hs
      split at hs
      · rename_i i heq
        simp only [Option.some.injEq] at hs
        subst hs
        have hbase : TimerInv { s with liveSave := s.liveSave.erase i } :=
          ⟨slotInv_erase_var h.1 heq, h.2⟩
        exact saveNotesRT_inv { s with liveSave := s.liveSave.erase i } env hbase
      · simp only [Option.some.injEq] at hs
        subst hs
        exact h
  | unload env =>
      simp only [stepRT] at hs
      split at hs
      · simp only [Option.some.injEq] at hs
        subst hs
        exact saveNotesRT_inv s env h
      · simp only [Option.some.injEq] at hs
        subst hs
        exact h

lemma runRT_inv {evs : List TEv} : ∀ {s s' : TimerSys}, TimerInv s →
    runRT s evs = some s' → TimerInv s' := by
  induction evs with
  | nil =>
      intro s s' h hs
      simp only [runRT, Option.some.injEq] at hs
      subst hs
      exact h
  | cons e rest ih =>
      intro s s' h hs
      simp only [runRT] at hs
      rcases he : stepRT s e with _ | s1
      · rw [he] at hs; cases hs
      · rw [he] at hs
        exact ih (stepRT_inv h he) hs

/-- Claim C8: in every reachable state of either implementation, at most one
save timer and at most one status-reset timer are live — the cancel-before-
reschedule discipline keeps each timer kind to a single slot. -/
theorem timer_single_slot (evs : List TEv) :
    (∀ s, runT timerInit evs = some s →
       s.liveSave.length ≤ 1 ∧ s.liveStatus.length ≤ 1) ∧
    (∀ s, runRT timerInit evs = some s →
       s.liveSave.length ≤ 1 ∧ s.liveStatus.length ≤ 1) := by
  have hinit : TimerInv timerInit := ⟨Or.inl rfl, Or.inl rfl⟩
  constructor
  · intro s hs
    have h := runT_inv hinit hs
    exact ⟨slotInv_length h.1, slotInv_length h.2⟩
  · intro s hs
    have h := runRT_inv hinit hs
    exact ⟨slotInv_length h.1, slotInv_length h.2⟩

/-- Witness for `timer_single_slot`: two rapid inputs, the save timer firing
successfully, then the status-reset timer firing, with the ids the model
allocates; the resulting concrete state has at most one live timer of each
kind. -/
theorem timer_single_slot_witness :
    (⟨3, [], [], some 1, some 2⟩ : TimerSys).liveSave.length ≤ 1 ∧
    (⟨3, [], [], some 1, some 2⟩ : TimerSys).liveStatus.length ≤ 1 :=
  (timer_single_slot [.input, .input, .saveFire 1 .ok, .statusFire 2]).1 _ (by decide)

lemma runL_cons_some {s s1 : LegacyState} {w1 : List Write} (t : Nat) (e : Ev)
    (rest : List (Nat × Ev)) (he : stepL s t e = some (s1, w1)) :
    runL s ((t, e) :: rest) = (runL s1 rest).map (fun p => (p.1, w1 ++ p.2)) := by
  simp only [runL, he, Option.some_bind]

lemma runL_cons_none {s : LegacyState} (t : Nat) (e : Ev) (rest : List (Nat × Ev))
    (he : stepL s t e = none) : runL s ((t, e) :: rest) = none := by
  simp only [runL, he, Option.none_bind]

lemma runR_cons_some {s s1 : ReactState} {w1 : List Write} (t : Nat) (e : Ev)
    (rest : List (Nat × Ev)) (he : stepR s t e = some (s1, w1)) :
    runR s ((t, e) :: rest) = (runR s1 rest).map (fun p => (p.1, w1 ++ p.2)) := by
  simp only [runR, he, Option.some_bind]

lemma runR_cons_none {s : ReactState} (t : Nat) (e : Ev) (rest : List (Nat × Ev))
    (he : stepR s t e = none) : runR s ((t, e) :: rest) = none := by
  simp only [runR, he, Option.none_bind]

lemma runL_preserve (P : LegacyState → Prop)
    (hstep : ∀ s t e s' w, P s → stepL s t e = some (s', w) → P s') :
    ∀ (evs : List (Nat × Ev)) (s s' : LegacyState) (w : List Write),
      P s → runL s evs = some (s', w) → P s' := by
  intro evs
  induction evs with
  | nil =>
      intro s s' w h hs
      simp only [runL, Option.some.injEq, Prod.mk.injEq] at hs
      rw [← hs.1]
      exact h
  | cons te rest ih =>
      intro s s' w h hs
      obtain ⟨t, e⟩ := te
      rcases he : stepL s t e with _ | p
      · rw [runL_cons_none t e rest he] at hs
        cases hs
      · obtain ⟨s1, w1⟩ := p
        rw [runL_cons_some t e rest he] at hs
        rcases hr : runL s1 rest with _ | q
        · rw [hr] at hs
          cases hs
        · obtain ⟨s2, w2⟩ := q
          rw [hr] at hs
          injection hs with hp
          injection hp with hp1 hp2
          subst hp1
          exact ih s1 s2 w2 (hstep s t e s1 w1 h he) hr

lemma saveNotesL_savingNoReset (env : StoreEnv) (t : Nat) (s : LegacyState) :
    SavingNoReset (saveNotesL env t s).1 := by
  cases env <;> intro hc
  · rfl
  · simp [saveNotesL] at hc
  · rfl
  · rfl

lemma stepL_savingNoReset :
    ∀ (s : LegacyState) (t : Nat) (e : Ev) (s' : LegacyState) (w : List Write),
      SavingNoReset s → stepL s t e = some (s', w) → SavingNoReset s' := by
  intro s t e s' w h hs
  cases e with
  | input c =>
      simp only [stepL] at hs
      split at hs
      · injection hs with hp
        injection hp with hp1 hp2
        subst hp1
        subst hp2
        intro _
        rfl
      · cases hs
  | saveFire env =>
      simp only [stepL] at hs
      split at hs
      · split at hs
        · simp only [Option.some.injEq] at hs
          have hres := saveNotesL_savingNoReset env t { s with saveDeadline := none, now := t }
          rw [hs] at hres
          exact hres
        · cases hs
      · cases hs
  | statusFire =>
      simp only [stepL] at hs
      split at hs
      · split at hs
        · injection hs with hp
          injection hp with hp1 hp2
          subst hp1
          subst hp2
          intro _
          rfl
        · cases hs
      · cases hs
  | storage k v =>
      simp only [stepL] at hs
      split at hs
      · split at hs
        · injection hs with hp
          injection hp with hp1 hp2
          subst hp1
          subst hp2
          exact h
        · injection hs with hp
          injection hp with hp1 hp2
          subst hp1
          subst hp2
          exact h
      · cases hs
  | hidden env =>
      simp only [stepL] at hs
      split at hs
      · split at hs
        · simp only [Option.some.injEq] at hs
          have hres := saveNotesL_savingNoReset env t { s with saveDeadline := none, now := t }
          rw [hs] at hres
          exact hres
        · injection hs with hp
          injection hp with hp1 hp2
          subst hp1
          subst hp2
          exact h
      · cases hs
  | unload env =>
      simp only [stepL] at hs
      split at hs
      · split at hs
        · simp only [Option.some.injEq] at hs
          have hres := saveNotesL_savingNoReset env t { s with saveDeadline := none, now := t }
          rw [hs] at hres
          exact hres
        · injection hs with hp
          injection hp with hp1 hp2
          subst hp1
          subst hp2
          exact h
      · cases hs

/-- Claim C2, amended to the plain-script implementation: every content-change
event sets status `saving` and cancels the outstanding status-reset timer, and
in every reachable state showing `saving` no status-reset timer is live, so a
status-reset firing is impossible (the step is invalid) until the cycle
leaves `saving`. -/
theorem input_cancels_status_reset :
    (∀ (s : LegacyState) (t : Nat) (c : String) (s' : LegacyState) (w : List Write),
       stepL s t (.input c) = some (s', w) →
       s'.status = .saving ∧ s'.statusDeadline = none) ∧
    (∀ (st : Option String) (evs : List (Nat × Ev)) (s : LegacyState) (w : List Write),
       runL (legacyInit st) evs = some (s, w) → s.status = .saving →
       ∀ t, stepL s t .statusFire = none) := by
  constructor
  · intro s t c s' w hs
    unfold stepL at hs
    split at hs
    · simp only [Option.some.injEq, Prod.mk.injEq] at hs
      rw [← hs.1]
      exact ⟨rfl, rfl⟩
    · cases hs
  · intro st evs s w hrun hsaving t
    have hinv : SavingNoReset s := by
      refine runL_preserve SavingNoReset stepL_savingNoReset evs (legacyInit st) s w ?_ hrun
      intro hc
      exact absurd hc (by simp [legacyInit])
    have hnone : s.statusDeadline = none := hinv hsaving
    unfold stepL
    split
    · simp [hnone]
    · rfl

/-- Witness for `input_cancels_status_reset`: the input step at time 0 from
the freshly initialized state, and the run consisting of that single input,
after which a status-reset firing at time 700 is invalid. -/
theorem input_cancels_status_reset_witness :
    ((⟨"a", .saving, some 500, none, true, none, 0, false, 0⟩ : LegacyState).status = .saving ∧
     (⟨"a", .saving, some 500, none, true, none, 0, false, 0⟩ : LegacyState).statusDeadline = none) ∧
    stepL (⟨"a", .saving, some 500, none, true, none, 0, false, 0⟩ : LegacyState) 700
      .statusFire = none :=
  ⟨input_cancels_status_reset.1 (legacyInit none) 0 "a"
      ⟨"a", .saving, some 500, none, true, none, 0, false, 0⟩ [] (by decide),
   input_cancels_status_reset.2 none [(0, .input "a")]
      ⟨"a", .saving, some 500, none, true, none, 0, false, 0⟩ [] (by decide) (by decide) 700⟩

/-- Counterexample to claim C2 as stated: in the component implementation a
content-change event arriving in state `saved` does NOT cancel the
outstanding status-reset timer (`handleInput` never touches it), so the
reset fires during the new save cycle.  After input "a" at 0, a successful
save at 500 (scheduling the reset for 2500) and input "b" at 2400 the
machine is in `saving`; the reset firing at 2500 is accepted and moves the
status to `default` while the new save is still pending (due 2900). -/
theorem react_status_reset_fires_during_save :
    (runR (reactInit none) [(0, .input "a"), (500, .saveFire .ok), (2400, .input "b")]).map
        (fun p => (p.1.status, p.1.statusDeadline)) =
      some (SaveStatus.saving, some 2500) ∧
    (runR (reactInit none)
        [(0, .input "a"), (500, .saveFire .ok), (2400, .input "b"), (2500, .statusFire)]).map
        (fun p => (p.1.status, p.1.saveDeadline)) =
      some (SaveStatus.default, some 2900) := by
  constructor <;> decide

lemma saveNotesL_varInv (env : StoreEnv) (t : Nat) (s : LegacyState)
    (h : VarInv s) : VarInv (saveNotesL env t s).1 := by
  cases env <;> exact h

lemma stepL_varInv :
    ∀ (s : LegacyState) (t : Nat) (e : Ev) (s' : LegacyState) (w : List Write),
      VarInv s → stepL s t e = some (s', w) → VarInv s' := by
  intro s t e s' w h hs
  cases e with
  | input c =>
      simp only [stepL] at hs
      split at hs
      · simp only [Option.some.injEq, Prod.mk.injEq] at hs
        rw [← hs.1]
        intro _
        rfl
      · cases hs
  | saveFire env =>
      simp only [stepL] at hs
      split at hs
      · split at hs
        · simp only [Option.some.injEq] at hs
          have hres : VarInv (saveNotesL env t { s with saveDeadline := none, now := t }).1 := by
            refine saveNotesL_varInv env t { s with saveDeadline := none, now := t } ?_
            intro hc
            simp at hc
          rw [hs] at hres
          exact hres
        · cases hs
      · cases hs
  | statusFire =>
      simp only [stepL] at hs
      split at hs
      · split at hs
        · simp only [Option.some.injEq, Prod.mk.injEq] at hs
          rw [← hs.1]
          exact h
        · cases hs
      · cases hs
  | storage k v =>
      simp only [stepL] at hs
      split at hs
      · split at hs <;>
          simp only [Option.some.injEq, Prod.mk.injEq] at hs <;>
          rw [← hs.1] <;> exact h
      · cases hs
  | hidden env =>
      simp only [stepL] at hs
      split at hs
      · split at hs
        · simp only [Option.some.injEq] at hs
          have hres : VarInv (saveNotesL env t { s with saveDeadline := none, now := t }).1 := by
            refine saveNotesL_varInv env t { s with saveDeadline := none, now := t } ?_
            intro hc
            simp at hc
          rw [hs] at hres
          exact hres
        · simp only [Option.some.injEq, Prod.mk.injEq] at hs
          rw [← hs.1]
          exact h
      · cases hs
  | unload env =>
      simp only [stepL] at hs
      split at hs
      · split at hs
        · simp only [Option.some.injEq] at hs
          have hres : VarInv (saveNotesL env t { s with saveDeadline := none, now := t }).1 := by
            refine saveNotesL_varInv env t { s with saveDeadline := none, now := t } ?_
            intro hc
            simp at hc
          rw [hs] at hres
          exact hres
        · simp only [Option.some.injEq, Prod.mk.injEq] at hs
          rw [← hs.1]
          exact h
      · cases hs

/-- Claim C5, amended: in the script, in every reachable state a live save
timer implies a non-null `saveTimeout` variable, and the hidden / unload
handlers test that variable; while it is set they cancel the timer and
perform the write of the current content immediately and synchronously
(exactly one write, the stored value becoming the current content); while it
is unset — i.e. before any input ever occurred — they perform no write.
Because the variable is never nulled after the timer fires, the handlers
also write when the timer is no longer pending (see the counterexample). -/
theorem exit_flush :
    (∀ (st : Option String) (evs : List (Nat × Ev)) (s : LegacyState) (w : List Write),
       runL (legacyInit st) evs = some (s, w) → s.saveDeadline.isSome → s.saveVar = true) ∧
    (∀ (s : LegacyState) (t : Nat), s.now ≤ t → s.saveVar = true →
       stepL s t (.hidden .ok) =
         some ({ s with saveDeadline := none, now := t, stored := some s.notepad,
                        statusDeadline := some (t + SAVE_STATUS_DISPLAY_DURATION),
                        status := .saved }, [(STORAGE_KEY, s.notepad)]) ∧
       stepL s t (.unload .ok) =
         some ({ s with saveDeadline := none, now := t, stored := some s.notepad,
                        statusDeadline := some (t + SAVE_STATUS_DISPLAY_DURATION),
                        status := .saved }, [(STORAGE_KEY, s.notepad)])) ∧
    (∀ (s : LegacyState) (t : Nat) (env : StoreEnv), s.now ≤ t → s.saveVar = false →
       stepL s t (.hidden env) = some ({ s with now := t }, []) ∧
       stepL s t (.unload env) = some ({ s with now := t }, [])) := by
  refine ⟨?_, ?_, ?_⟩
  · intro st evs s w hrun
    refine runL_preserve VarInv stepL_varInv evs (legacyInit st) s w ?_ hrun
    intro hc
    exact absurd hc (by simp [legacyInit])
  · intro s t ht hvar
    constructor <;> simp [stepL, saveNotesL, ht, hvar]
  · intro s t env ht hvar
    constructor <;> simp [stepL, ht, hvar]

/-- Witness for `exit_flush`: the run of a single input (whose final state
has a live timer and the variable set), a hidden flush from that state, and
the no-write case from the freshly initialized state. -/
theorem exit_flush_witness :
    (⟨"a", .saving, some 500, none, true, none, 0, false, 0⟩ : LegacyState).saveVar = true ∧
    (stepL (⟨"a", .saving, some 500, none, true, none, 0, false, 0⟩ : LegacyState) 100
        (.hidden .ok) =
      some ({ (⟨"a", .saving, some 500, none, true, none, 0, false, 0⟩ : LegacyState) with
                saveDeadline := none, now := 100, stored := some "a",
                statusDeadline := some (100 + SAVE_STATUS_DISPLAY_DURATION),
                status := .saved }, [(STORAGE_KEY, "a")])) ∧
    (stepL (legacyInit none) 5 (.hidden .otherErr) =
      some ({ legacyInit none with now := 5 }, [])) :=
  ⟨exit_flush.1 none [(0, .input "a")]
      ⟨"a", .saving, some 500, none, true, none, 0, false, 0⟩ [] (by decide) (by decide),
   (exit_flush.2.1 ⟨"a", .saving, some 500, none, true, none, 0, false, 0⟩ 100
      (by decide) (by decide)).1,
   (exit_flush.2.2 (legacyInit none) 5 .otherErr (by decide) (by decide)).1⟩

/-- Counterexample to claim C5 as stated: after input "a" at 0 and the save
timer firing at 500, no save timer is pending; yet the page becoming hidden
at 600 performs a second write, because the handler tests the never-nulled
`saveTimeout` variable rather than timer liveness. -/
theorem flush_without_pending_timer :
    (runL (legacyInit none) [(0, .input "a"), (500, .saveFire .ok)]).map
        (fun p => p.1.saveDeadline) = some none ∧
    (runL (legacyInit none) [(0, .input "a"), (500, .saveFire .ok), (600, .hidden .ok)]).map
        (fun p => p.2) = some [(STORAGE_KEY, "a"), (STORAGE_KEY, "a")] := by
  constructor <;> decide

lemma runL_append (a b : List (Nat × Ev)) :
    ∀ s, runL s (a ++ b) =
      (runL s a).bind (fun p => (runL p.1 b).map (fun q => (q.1, p.2 ++ q.2))) := by
  induction a with
  | nil =>
      intro s
      simp [runL]
  | cons te rest ih =>
      intro s
      obtain ⟨t, e⟩ := te
      simp only [List.cons_append, runL]
      cases he : stepL s t e with
      | none => rfl
      | some p =>
          simp only [Option.some_bind, List.append_eq]
          rw [ih p.1]
          cases hr : runL p.1 rest with
          | none => rfl
          | some q =>
              simp only [Option.some_bind, Option.map_some']
              cases hb : runL q.1 b with
              | none => rfl
              | some u =>
                  simp [List.append_assoc]

lemma runL_rapid :
    ∀ (inputs : List (Nat × String)) (s : LegacyState) (t0 : Nat) (c0 : String),
      s.now ≤ t0 → Rapid ((t0, c0) :: inputs) = true →
      ∃ s1, runL s (inputEvs ((t0, c0) :: inputs)) = some (s1, []) ∧
        s1.status = .saving ∧ s1.statusDeadline = none ∧
        s1.notepad = (lastOf inputs (t0, c0)).2 ∧
        s1.saveDeadline = some ((lastOf inputs (t0, c0)).1 + AUTOSAVE_DELAY) ∧
        s1.now = (lastOf inputs (t0, c0)).1 ∧
        s1.stored = s.stored ∧ s1.saveVar = true := by
  intro inputs
  induction inputs with
  | nil =>
      intro s t0 c0 hstart _
      refine ⟨{ s with notepad := c0, status := .saving, statusDeadline := none,
                       saveDeadline := some (t0 + AUTOSAVE_DELAY),
                       saveVar := true, now := t0 }, ?_, rfl, rfl, rfl, rfl, rfl, rfl, rfl⟩
      have hstep : stepL s t0 (.input c0) =
          some ({ s with notepad := c0, status := .saving, statusDeadline := none,
                         saveDeadline := some (t0 + AUTOSAVE_DELAY),
                         saveVar := true, now := t0 }, []) := by
        simp [stepL, hstart]
      simp [inputEvs, runL, hstep]
  | cons p rest ih =>
      intro s t0 c0 hstart hrapid
      obtain ⟨t1, c1⟩ := p
      simp only [Rapid, Bool.and_eq_true, decide_eq_true_eq] at hrapid
      obtain ⟨⟨hle, _⟩, hrapid1⟩ := hrapid
      have hstep : stepL s t0 (.input c0) =
          some ({ s with notepad := c0, status := .saving, statusDeadline := none,
                         saveDeadline := some (t0 + AUTOSAVE_DELAY),
                         saveVar := true, now := t0 }, []) := by
        simp [stepL, hstart]
      obtain ⟨s1, hrun, hst, hsd, hnp, hdl, hnow, hstored, hvar⟩ :=
        ih { s with notepad := c0, status := .saving, statusDeadline := none,
                    saveDeadline := some (t0 + AUTOSAVE_DELAY),
                    saveVar := true, now := t0 } t1 c1 hle hrapid1
      refine ⟨s1, ?_, hst, hsd, hnp, hdl, hnow, hstored, hvar⟩
      have hcons : inputEvs ((t0, c0) :: (t1, c1) :: rest) =
          (t0, Ev.input c0) :: inputEvs ((t1, c1) :: rest) := rfl
      rw [hcons, runL_cons_some t0 (Ev.input c0) (inputEvs ((t1, c1) :: rest)) hstep, hrun]
      rfl

/-- Claim C1: for every finite sequence of content-change events whose
successive events are separated by less than the debounce delay, each event
immediately sets status `saving`, cancels the pending timers and schedules a
fresh save timer (first conjunct, a single input step); running the whole
sequence performs no storage write and leaves exactly one save timer, due
one delay after the last event; and the debounce firing then performs
exactly one write of the note-content key, whose value is the content as of
the last event in the sequence. -/
theorem debounce_coalescing (s : LegacyState) (t0 : Nat) (c0 : String)
    (inputs : List (Nat × String)) (hstart : s.now ≤ t0)
    (hrapid : Rapid ((t0, c0) :: inputs) = true) :
    (∀ (s0 : LegacyState) (t : Nat) (c : String), s0.now ≤ t →
        stepL s0 t (.input c) =
          some ({ s0 with notepad := c, status := .saving, statusDeadline := none,
                          saveDeadline := some (t + AUTOSAVE_DELAY),
                          saveVar := true, now := t }, [])) ∧
    (∃ s1, runL s (inputEvs ((t0, c0) :: inputs)) = some (s1, []) ∧
       s1.status = .saving ∧
       s1.notepad = (lastOf inputs (t0, c0)).2 ∧
       s1.saveDeadline = some ((lastOf inputs (t0, c0)).1 + AUTOSAVE_DELAY) ∧
       runL s (inputEvs ((t0, c0) :: inputs) ++
           [((lastOf inputs (t0, c0)).1 + AUTOSAVE_DELAY, .saveFire .ok)]) =
         some ({ s1 with saveDeadline := none,
                         now := (lastOf inputs (t0, c0)).1 + AUTOSAVE_DELAY,
                         stored := some (lastOf inputs (t0, c0)).2,
                         statusDeadline := some ((lastOf inputs (t0, c0)).1 + AUTOSAVE_DELAY +
                           SAVE_STATUS_DISPLAY_DURATION),
                         status := .saved },
               [(STORAGE_KEY, (lastOf inputs (t0, c0)).2)])) := by
  constructor
  · intro s0 t c ht
    simp [stepL, ht]
  · obtain ⟨s1, hrun, hst, hsd, hnp, hdl, hnow, hstored, hvar⟩ :=
      runL_rapid inputs s t0 c0 hstart hrapid
    refine ⟨s1, hrun, hst, hnp, hdl, ?_⟩
    have hfire : stepL s1 ((lastOf inputs (t0, c0)).1 + AUTOSAVE_DELAY) (.saveFire .ok) =
        some ({ s1 with saveDeadline := none,
                        now := (lastOf inputs (t0, c0)).1 + AUTOSAVE_DELAY,
                        stored := some s1.notepad,
                        statusDeadline := some ((lastOf inputs (t0, c0)).1 + AUTOSAVE_DELAY +
                          SAVE_STATUS_DISPLAY_DURATION),
                        status := .saved },
              [(STORAGE_KEY, s1.notepad)]) := by
      have ht : s1.now ≤ (lastOf inputs (t0, c0)).1 + AUTOSAVE_DELAY := by
        rw [hnow]
        exact Nat.le_add_right _ _
      simp [stepL, saveNotesL, ht, hdl]
    rw [runL_append (inputEvs ((t0, c0) :: inputs))
          [((lastOf inputs (t0, c0)).1 + AUTOSAVE_DELAY, Ev.saveFire .ok)] s, hrun]
    simp only [Option.some_bind]
    have hone : runL s1 [((lastOf inputs (t0, c0)).1 + AUTOSAVE_DELAY, Ev.saveFire .ok)] =
        some ({ s1 with saveDeadline := none,
                        now := (lastOf inputs (t0, c0)).1 + AUTOSAVE_DELAY,
                        stored := some s1.notepad,
                        statusDeadline := some ((lastOf inputs (t0, c0)).1 + AUTOSAVE_DELAY +
                          SAVE_STATUS_DISPLAY_DURATION),
                        status := .saved },
              [(STORAGE_KEY, s1.notepad)]) := by
      rw [runL_cons_some _ _ [] hfire]
      simp [runL]
    rw [hone, hnp]
    rfl

/-- Witness for `debounce_coalescing`: three rapid inputs "h", "he", "hey"
at 0, 300, 600 coalesce into the single write of "hey" at 1100. -/
theorem debounce_coalescing_witness :
    (∀ (s0 : LegacyState) (t : Nat) (c : String), s0.now ≤ t →
        stepL s0 t (.input c) =
          some ({ s0 with notepad := c, status := .saving, statusDeadline := none,
                          saveDeadline := some (t + AUTOSAVE_DELAY),
                          saveVar := true, now := t }, [])) ∧
    (∃ s1, runL (legacyInit none) (inputEvs ((0, "h") :: [(300, "he"), (600, "hey")])) =
         some (s1, []) ∧
       s1.status = .saving ∧
       s1.notepad = (lastOf [(300, "he"), (600, "hey")] (0, "h")).2 ∧
       s1.saveDeadline = some ((lastOf [(300, "he"), (600, "hey")] (0, "h")).1 + AUTOSAVE_DELAY) ∧
       runL (legacyInit none) (inputEvs ((0, "h") :: [(300, "he"), (600, "hey")]) ++
           [((lastOf [(300, "he"), (600, "hey")] (0, "h")).1 + AUTOSAVE_DELAY, .saveFire .ok)]) =
         some ({ s1 with saveDeadline := none,
                         now := (lastOf [(300, "he"), (600, "hey")] (0, "h")).1 + AUTOSAVE_DELAY,
                         stored := some (lastOf [(300, "he"), (600, "hey")] (0, "h")).2,
                         statusDeadline := some ((lastOf [(300, "he"), (600, "hey")] (0, "h")).1 +
                           AUTOSAVE_DELAY + SAVE_STATUS_DISPLAY_DURATION),
                         status := .saved },
               [(STORAGE_KEY, (lastOf [(300, "he"), (600, "hey")] (0, "h")).2)])) :=
  debounce_coalescing (legacyInit none) 0 "h" [(300, "he"), (600, "hey")]
    (by decide) (by decide)

lemma step_agrees {l : LegacyState} {r : ReactState} (t : Nat) (e : Ev)
    (hA : Agrees l r) (hb : isBasic e = true) :
    (stepL l t e = none ∧ stepR r t e = none) ∨
    (∃ l' r' w, stepL l t e = some (l', w) ∧ stepR r t e = some (r', w) ∧ Agrees l' r') := by
  obtain ⟨h1, h2, h3, h4, h5, h6, h7, h8, h9⟩ := hA
  cases e with
  | statusFire => simp [isBasic] at hb
  | storage k v => simp [isBasic] at hb
  | hidden env => simp [isBasic] at hb
  | unload env => simp [isBasic] at hb
  | input c =>
      by_cases ht : l.now ≤ t
      · have htr : r.now ≤ t := by rw [← h5]; exact ht
        right
        refine ⟨{ l with notepad := c, status := .saving, statusDeadline := none,
                          saveDeadline := some (t + AUTOSAVE_DELAY),
                          saveVar := true, now := t },
               { r with content := c, status := .saving,
                        saveDeadline := some (t + AUTOSAVE_DELAY),
                        savePending := c, saveVar := true, now := t }, [], ?_, ?_, ?_⟩
        · simp [stepL, ht]
        · simp [stepR, htr]
        · exact ⟨rfl, rfl, rfl, h4, rfl, rfl, h7, h8, fun _ => rfl⟩
      · have htr : ¬ r.now ≤ t := by rw [← h5]; exact ht
        left
        exact ⟨by simp [stepL, ht], by simp [stepR, htr]⟩
  | saveFire env =>
      by_cases ht : l.now ≤ t
      · have htr : r.now ≤ t := by rw [← h5]; exact ht
        by_cases hd : l.saveDeadline = some t
        · have hdr : r.saveDeadline = some t := by rw [← h3]; exact hd
          have hp : r.savePending = l.notepad := by
            refine h9 ?_
            rw [hd]
            exact fun hc => Option.noConfusion hc
          right
          cases env with
          | unavail =>
              refine ⟨{ l with saveDeadline := none, now := t, statusDeadline := none,
                                status := .error, modalShown := true },
                     { r with saveDeadline := none, now := t, status := .error,
                              showErrorFlag := true }, [], ?_, ?_, ?_⟩
              · simp [stepL, saveNotesL, ht, hd]
              · simp [stepR, saveNotesR, htr, hdr]
              · refine ⟨h1, rfl, rfl, h4, rfl, h6, rfl, h8, ?_⟩
                intro hc
                exact absurd rfl hc
          | ok =>
              refine ⟨{ l with saveDeadline := none, now := t,
                                stored := some l.notepad,
                                statusDeadline := some (t + SAVE_STATUS_DISPLAY_DURATION),
                                status := .saved },
                     { r with saveDeadline := none, now := t,
                              stored := some r.savePending,
                              statusDeadline := some (t + SAVE_STATUS_DISPLAY_DURATION),
                              status := .saved },
                     [(STORAGE_KEY, l.notepad)], ?_, ?_, ?_⟩
              · simp [stepL, saveNotesL, ht, hd]
              · rw [← hp]
                simp [stepR, saveNotesR, htr, hdr]
              · refine ⟨h1, rfl, rfl, ?_, rfl, h6, h7, h8, ?_⟩
                · rw [hp]
                · intro hc
                  exact absurd rfl hc
          | quota =>
              refine ⟨{ l with saveDeadline := none, now := t, statusDeadline := none,
                                status := .error, alertCount := l.alertCount + 1 },
                     { r with saveDeadline := none, now := t, status := .error,
                              alertCount := r.alertCount + 1 }, [], ?_, ?_, ?_⟩
              · simp [stepL, saveNotesL, ht, hd]
              · simp [stepR, saveNotesR, htr, hdr]
              · refine ⟨h1, rfl, rfl, h4, rfl, h6, h7, ?_, ?_⟩
                · rw [h8]
                · intro hc
                  exact absurd rfl hc
          | otherErr =>
              refine ⟨{ l with saveDeadline := none, now := t, statusDeadline := none,
                                status := .error },
                     { r with saveDeadline := none, now := t, status := .error }, [],
                     ?_, ?_, ?_⟩
              · simp [stepL, saveNotesL, ht, hd]
              · simp [stepR, saveNotesR, htr, hdr]
              · refine ⟨h1, rfl, rfl, h4, rfl, h6, h7, h8, ?_⟩
                intro hc
                exact absurd rfl hc
        · have hdr : ¬ r.saveDeadline = some t := by rw [← h3]; exact hd
          left
          exact ⟨by simp [stepL, ht, hd], by simp [stepR, htr, hdr]⟩
      · have htr : ¬ r.now ≤ t := by rw [← h5]; exact ht
        left
        exact ⟨by simp [stepL, ht], by simp [stepR, htr]⟩

lemma run_agrees :
    ∀ (evs : List (Nat × Ev)) (l : LegacyState) (r : ReactState),
      Agrees l r → evs.all (fun te => isBasic te.2) = true →
      (runL l evs = none ∧ runR r evs = none) ∨
      (∃ l' r' w, runL l evs = some (l', w) ∧ runR r evs = some (r', w) ∧ Agrees l' r') := by
  intro evs
  induction evs with
  | nil =>
      intro l r hA _
      right
      exact ⟨l, r, [], rfl, rfl, hA⟩
  | cons te rest ih =>
      intro l r hA hb
      obtain ⟨t, e⟩ := te
      simp only [List.all_cons, Bool.and_eq_true] at hb
      rcases step_agrees t e hA hb.1 with ⟨hn1, hn2⟩ | ⟨l1, r1, w1, hs1, hs2, hA1⟩
      · left
        exact ⟨runL_cons_none t e rest hn1, runR_cons_none t e rest hn2⟩
      · rcases ih l1 r1 hA1 hb.2 with ⟨hn1, hn2⟩ | ⟨l2, r2, w2, hr1, hr2, hA2⟩
        · left
          constructor
          · rw [runL_cons_some t e rest hs1, hn1]
            rfl
          · rw [runR_cons_some t e rest hs2, hn2]
            rfl
        · right
          refine ⟨l2, r2, w1 ++ w2, ?_, ?_, hA2⟩
          · rw [runL_cons_some t e rest hs1, hr1]
            rfl
          · rw [runR_cons_some t e rest hs2, hr2]
            rfl

/-- Claim C3, amended: restricted to event sequences consisting only of
content-change events and save-timer firings, the two implementations are
lock-step equivalent — starting from the same loaded value they perform the
same sequence of storage writes with the same written values, and reach the
same save-status and the same stored value.  (On richer traces they diverge;
see the counterexample.) -/
theorem basic_trace_equivalence (st : Option String) (evs : List (Nat × Ev))
    (hb : evs.all (fun te => isBasic te.2) = true) :
    (runL (legacyInit st) evs).map (fun p => (p.2, p.1.status, p.1.stored)) =
    (runR (reactInit st) evs).map (fun p => (p.2, p.1.status, p.1.stored)) := by
  have hA : Agrees (legacyInit st) (reactInit st) := by
    refine ⟨rfl, rfl, rfl, rfl, rfl, rfl, rfl, rfl, ?_⟩
    intro hc
    exact absurd rfl hc
  rcases run_agrees evs (legacyInit st) (reactInit st) hA hb with
    ⟨hn1, hn2⟩ | ⟨l', r', w, h1, h2, hA'⟩
  · rw [hn1, hn2]
    rfl
  · rw [h1, h2]
    simp only [Option.map_some', Option.some.injEq]
    rw [hA'.2.1, hA'.2.2.2.1]

/-- Witness for `basic_trace_equivalence`: two inputs and a successful
debounce firing. -/
theorem basic_trace_equivalence_witness :
    (runL (legacyInit (some "old"))
        [(0, .input "a"), (100, .input "ab"), (600, .saveFire .ok)]).map
        (fun p => (p.2, p.1.status, p.1.stored)) =
    (runR (reactInit (some "old"))
        [(0, .input "a"), (100, .input "ab"), (600, .saveFire .ok)]).map
        (fun p => (p.2, p.1.status, p.1.stored)) :=
  basic_trace_equivalence (some "old")
    [(0, .input "a"), (100, .input "ab"), (600, .saveFire .ok)] (by decide)

/-- Counterexample to claim C3 as stated: the implementations are not
behaviourally equivalent on all event sequences.  The script's debounce
callback reads the text area at fire time, while the component's scheduled
closure captures the content as of the input event; a storage-change
notification arriving between the input and the firing makes the script
write the reconciled value "z" while the component writes the stale captured
value "a". -/
theorem impl_divergence_storage :
    (runL (legacyInit none)
        [(0, .input "a"), (100, .storage STORAGE_KEY (some "z")), (500, .saveFire .ok)]).map
        (fun p => p.2) = some [(STORAGE_KEY, "z")] ∧
    (runR (reactInit none)
        [(0, .input "a"), (100, .storage STORAGE_KEY (some "z")), (500, .saveFire .ok)]).map
        (fun p => p.2) = some [(STORAGE_KEY, "a")] := by
  constructor <;> decide

/-- Claim C9: at theme initialization, dark mode is enabled iff the stored
theme value is exactly the string `"dark"`; an absent value, `"light"`, or
any string outside the declared domain yields light mode. -/
theorem theme_init_dark_iff :
    initThemeDark none = false ∧ initThemeDark (some "light") = false ∧
    ∀ v : Option String, initThemeDark v = true ↔ v = some "dark" := by
  refine ⟨rfl, by decide, fun v => ?_⟩
  simp [initThemeDark]

/-- Witness for `theme_init_dark_iff` at a concrete out-of-domain value. -/
theorem theme_init_dark_iff_witness :
    initThemeDark (some "DARK") = true ↔ some "DARK" = some "dark" :=
  theme_init_dark_iff.2.2 (some "DARK")

/-- Claim C4: a storage-change notification for the note-content key whose
new value differs from the locally held content replaces the local content
with exactly the notified value, the empty string substituted when the
notification carries no value — in both implementations. -/
theorem storage_sync_applies (s : LegacyState) (r : ReactState) (t u : Nat)
    (v w : Option String) (hL : s.now ≤ t) (hR : r.now ≤ u)
    (hvL : v ≠ some s.notepad) (hvR : w ≠ some r.content) :
    (∃ s', stepL s t (.storage STORAGE_KEY v) = some (s', []) ∧ s'.notepad = v.getD "") ∧
    (∃ r', stepR r u (.storage STORAGE_KEY w) = some (r', []) ∧ r'.content = w.getD "") := by
  constructor
  · exact ⟨{ s with notepad := v.getD "", now := t }, by simp [stepL, hL, hvL], rfl⟩
  · exact ⟨{ r with content := w.getD "", now := u }, by simp [stepR, hR, hvR], rfl⟩

/-- Witness for `storage_sync_applies`: a notification carrying `"foo"`
against local `"bar"`, and a null notification against local `"bar"`. -/
theorem storage_sync_applies_witness :
    (∃ s', stepL { legacyInit (some "bar") with now := 3 } 5 (.storage STORAGE_KEY (some "foo")) =
        some (s', []) ∧ s'.notepad = (some "foo").getD "") ∧
    (∃ r', stepR { reactInit (some "bar") with now := 2 } 4 (.storage STORAGE_KEY none) =
        some (r', []) ∧ r'.content = (none : Option String).getD "") :=
  storage_sync_applies { legacyInit (some "bar") with now := 3 }
    { reactInit (some "bar") with now := 2 } 5 4 (some "foo") none
    (by decide) (by decide) (by decide) (by decide)

/-- Claim C10: handling a storage-change notification modifies only the local
content: it performs no storage write, changes no save status, schedules or
cancels no timers, and touches neither the modal, the alert count, nor the
stored value; a notification for a different key, or one whose value equals
the current local content, leaves the local content unchanged as well. -/
theorem storage_sync_frame (s : LegacyState) (r : ReactState) (t u : Nat)
    (k k2 : String) (v w : Option String) (hL : s.now ≤ t) (hR : r.now ≤ u) :
    (∃ s', stepL s t (.storage k v) = some (s', []) ∧
       s'.status = s.status ∧ s'.saveDeadline = s.saveDeadline ∧
       s'.statusDeadline = s.statusDeadline ∧ s'.stored = s.stored ∧
       s'.saveVar = s.saveVar ∧ s'.modalShown = s.modalShown ∧
       s'.alertCount = s.alertCount ∧
       ((k ≠ STORAGE_KEY ∨ v = some s.notepad) → s'.notepad = s.notepad)) ∧
    (∃ r', stepR r u (.storage k2 w) = some (r', []) ∧
       r'.status = r.status ∧ r'.saveDeadline = r.saveDeadline ∧
       r'.statusDeadline = r.statusDeadline ∧ r'.stored = r.stored ∧
       r'.saveVar = r.saveVar ∧ r'.showErrorFlag = r.showErrorFlag ∧
       r'.alertCount = r.alertCount ∧
       ((k2 ≠ STORAGE_KEY ∨ w = some r.content) → r'.content = r.content)) := by
  constructor
  · by_cases h : k = STORAGE_KEY ∧ v ≠ some s.notepad
    · refine ⟨{ s with notepad := v.getD "", now := t }, by simp [stepL, hL, h],
        rfl, rfl, rfl, rfl, rfl, rfl, rfl, ?_⟩
      intro hc
      rcases hc with hc | hc
      · exact absurd h.1 hc
      · exact absurd hc h.2
    · exact ⟨{ s with now := t }, by simp [stepL, hL, h],
        rfl, rfl, rfl, rfl, rfl, rfl, rfl, fun _ => rfl⟩
  · by_cases h : k2 = STORAGE_KEY ∧ w ≠ some r.content
    · refine ⟨{ r with content := w.getD "", now := u }, by simp [stepR, hR, h],
        rfl, rfl, rfl, rfl, rfl, rfl, rfl, ?_⟩
      intro hc
      rcases hc with hc | hc
      · exact absurd h.1 hc
      · exact absurd hc h.2
    · exact ⟨{ r with now := u }, by simp [stepR, hR, h],
        rfl, rfl, rfl, rfl, rfl, rfl, rfl, fun _ => rfl⟩

/-- Witness for `storage_sync_frame`: a matching-key notification on the
script side and an unrelated-key notification on the component side. -/
theorem storage_sync_frame_witness :
    (∃ s', stepL (legacyInit (some "bar")) 1 (.storage STORAGE_KEY (some "foo")) =
        some (s', []) ∧
       s'.status = (legacyInit (some "bar")).status ∧
       s'.saveDeadline = (legacyInit (some "bar")).saveDeadline ∧
       s'.statusDeadline = (legacyInit (some "bar")).statusDeadline ∧
       s'.stored = (legacyInit (some "bar")).stored ∧
       s'.saveVar = (legacyInit (some "bar")).saveVar ∧
       s'.modalShown = (legacyInit (some "bar")).modalShown ∧
       s'.alertCount = (legacyInit (some "bar")).alertCount ∧
       ((STORAGE_KEY ≠ STORAGE_KEY ∨ some "foo" = some (legacyInit (some "bar")).notepad) →
         s'.notepad = (legacyInit (some "bar")).notepad)) ∧
    (∃ r', stepR (reactInit (some "bar")) 1 (.storage THEME_KEY (some "dark")) =
        some (r', []) ∧
       r'.status = (reactInit (some "bar")).status ∧
       r'.saveDeadline = (reactInit (some "bar")).saveDeadline ∧
       r'.statusDeadline = (reactInit (some "bar")).statusDeadline ∧
       r'.stored = (reactInit (some "bar")).stored ∧
       r'.saveVar = (reactInit (some "bar")).saveVar ∧
       r'.showErrorFlag = (reactInit (some "bar")).showErrorFlag ∧
       r'.alertCount = (reactInit (some "bar")).alertCount ∧
       ((THEME_KEY ≠ STORAGE_KEY ∨ some "dark" = some (reactInit (some "bar")).content) →
         r'.content = (reactInit (some "bar")).content)) :=
  storage_sync_frame (legacyInit (some "bar")) (reactInit (some "bar")) 1 1
    STORAGE_KEY THEME_KEY (some "foo") (some "dark") (by decide) (by decide)

/-- Claim C6: on every write attempt that throws, the status becomes `error`
in both implementations; a blocking alert is raised exactly when the failure
is a quota-exceeded error; no value is written; and the operation returns
normally (the step is defined, not an error state of the model). -/
theorem write_failure_handling (s : LegacyState) (r : ReactState) (t u : Nat)
    (hdL : s.saveDeadline = some t) (hL : s.now ≤ t)
    (hdR : r.saveDeadline = some u) (hR : r.now ≤ u) :
    (∃ s', stepL s t (.saveFire .quota) = some (s', []) ∧
       s'.status = .error ∧ s'.alertCount = s.alertCount + 1 ∧ s'.stored = s.stored) ∧
    (∃ s', stepL s t (.saveFire .otherErr) = some (s', []) ∧
       s'.status = .error ∧ s'.alertCount = s.alertCount ∧ s'.stored = s.stored) ∧
    (∃ r', stepR r u (.saveFire .quota) = some (r', []) ∧
       r'.status = .error ∧ r'.alertCount = r.alertCount + 1 ∧ r'.stored = r.stored) ∧
    (∃ r', stepR r u (.saveFire .otherErr) = some (r', []) ∧
       r'.status = .error ∧ r'.alertCount = r.alertCount ∧ r'.stored = r.stored) := by
  have h1 : stepL s t (.saveFire .quota) =
      some ({ s with saveDeadline := none, now := t, statusDeadline := none,
                     status := .error, alertCount := s.alertCount + 1 }, []) := by
    simp [stepL, saveNotesL, hL, hdL]
  have h2 : stepL s t (.saveFire .otherErr) =
      some ({ s with saveDeadline := none, now := t, statusDeadline := none,
                     status := .error }, []) := by
    simp [stepL, saveNotesL, hL, hdL]
  have h3 : stepR r u (.saveFire .quota) =
      some ({ r with saveDeadline := none, now := u, status := .error,
                     alertCount := r.alertCount + 1 }, []) := by
    simp [stepR, saveNotesR, hR, hdR]
  have h4 : stepR r u (.saveFire .otherErr) =
      some ({ r with saveDeadline := none, now := u, status := .error }, []) := by
    simp [stepR, saveNotesR, hR, hdR]
  exact ⟨⟨_, h1, rfl, rfl, rfl⟩, ⟨_, h2, rfl, rfl, rfl⟩,
         ⟨_, h3, rfl, rfl, rfl⟩, ⟨_, h4, rfl, rfl, rfl⟩⟩

/-- Witness for `write_failure_handling`: a pending save due at time 500 in
both implementations, fired with each failing outcome. -/
theorem write_failure_handling_witness :
    (∃ s', stepL { legacyInit none with saveDeadline := some 500 } 500 (.saveFire .quota) =
        some (s', []) ∧ s'.status = .error ∧
       s'.alertCount = { legacyInit none with saveDeadline := some 500 }.alertCount + 1 ∧
       s'.stored = { legacyInit none with saveDeadline := some 500 }.stored) ∧
    (∃ s', stepL { legacyInit none with saveDeadline := some 500 } 500 (.saveFire .otherErr) =
        some (s', []) ∧ s'.status = .error ∧
       s'.alertCount = { legacyInit none with saveDeadline := some 500 }.alertCount ∧
       s'.stored = { legacyInit none with saveDeadline := some 500 }.stored) ∧
    (∃ r', stepR { reactInit none with saveDeadline := some 500 } 500 (.saveFire .quota) =
        some (r', []) ∧ r'.status = .error ∧
       r'.alertCount = { reactInit none with saveDeadline := some 500 }.alertCount + 1 ∧
       r'.stored = { reactInit none with saveDeadline := some 500 }.stored) ∧
    (∃ r', stepR { reactInit none with saveDeadline := some 500 } 500 (.saveFire .otherErr) =
        some (r', []) ∧ r'.status = .error ∧
       r'.alertCount = { reactInit none with saveDeadline := some 500 }.alertCount ∧
       r'.stored = { reactInit none with saveDeadline := some 500 }.stored) :=
  write_failure_handling { legacyInit none with saveDeadline := some 500 }
    { reactInit none with saveDeadline := some 500 } 500 500 rfl (by decide) rfl (by decide)

/-- Claim C7: the storage availability probe returns `false` exactly when the
sentinel write or delete throws and `true` otherwise; on the `true` path the
sentinel key has been removed; and in all cases the probe leaves every key
other than the sentinel key untouched. -/
theorem probe_contract (st : ThrowingStore) :
    ((isLocalStorageAvailable st).1 = true ↔
       st.setThrows = false ∧ st.removeThrows = false) ∧
    ((isLocalStorageAvailable st).1 = true →
       (isLocalStorageAvailable st).2 TEST_KEY = none) ∧
    (∀ k, k ≠ TEST_KEY → (isLocalStorageAvailable st).2 k = st.data k) := by
  rcases st with ⟨d, hset, hrem⟩
  cases hset <;> cases hrem <;>
    simp [isLocalStorageAvailable] <;>
    intro k hk <;> simp [hk]

/-- Witness for `probe_contract` on a healthy empty store, with a
non-sentinel key left untouched. -/
theorem probe_contract_witness :
    (isLocalStorageAvailable ⟨fun _ => none, false, false⟩).1 = true ∧
    (isLocalStorageAvailable ⟨fun _ => none, false, false⟩).2 TEST_KEY = none ∧
    (isLocalStorageAvailable ⟨fun _ => none, false, false⟩).2 STORAGE_KEY =
      (fun _ => (none : Option String)) STORAGE_KEY := by
  have h := probe_contract ⟨fun _ => none, false, false⟩
  exact ⟨h.1.mpr ⟨rfl, rfl⟩, h.2.1 (h.1.mpr ⟨rfl, rfl⟩), h.2.2 STORAGE_KEY (by decide)⟩

end Scratchpad
